import Mathlib

/-!
Verification of the batch job orchestration layer of the qwen_img_8step
example clients.

The definitions below are shallow embeddings of the Python functions in
`src/examples/quick_start.py`, `src/examples/api_integration.py`,
`src/examples/batch_generation.py` and
`src/benchmarks/test_performance.py`.  Wall-clock time is modelled as a
discrete tick counter: each `time.sleep(1)` inside a polling loop advances
the clock by one tick, network calls at a tick are instantaneous, and the
responses of the remote ComfyUI service are supplied as a function from
tick number to response.  Fallible code returns `Option`/`Except`.
-/

namespace QwenImg

/-! ## Remote poll responses

One `/history/{prompt_id}` poll can: raise a `requests` exception, return a
non-200 status, return 200 with the prompt id absent from the history dict,
return 200 with the prompt id present but no images in its outputs yet, or
return 200 with the prompt id present and an output image available. -/

inductive PollResp where
  | exn : PollResp
  | httpErr (code : Nat) : PollResp
  | notFound : PollResp
  | running : PollResp
  | done : PollResp
  deriving DecidableEq, Repr

/-- Result dictionary returned by `QwenImageGenerator.wait_for_completion`
(`src/examples/quick_start.py`, lines 68-111).  `generationTime` is the
`generation_time` entry, `polls` counts how many `/history` GET requests the
loop issued (an observation added for specification purposes only). -/
structure WaitResult where
  success : Bool
  error : Option String
  generationTime : Nat
  polls : Nat
  deriving DecidableEq, Repr

/-- One iteration of the `while time.time() - start_time < self.timeout` loop
of `QwenImageGenerator.wait_for_completion`.  `fuel` is the number of ticks
still inside the time budget (`fuel = timeout - t`), `t` the current tick.
On `done` the function returns success with `generation_time = t`; a
`requests` exception `break`s out of the loop, landing on the final timeout
return, whose `generation_time` is the configured `timeout` itself; a non-200
status, an absent prompt id, or outputs without images all fall through to
`time.sleep(1)` and the next iteration. -/
def waitLoop (f : Nat → PollResp) (timeout : Nat) : Nat → Nat → WaitResult
  | 0, t => ⟨false, some "timeout", timeout, t⟩
  | fuel + 1, t =>
    match f t with
    | PollResp.done => ⟨true, none, t, t + 1⟩
    | PollResp.exn => ⟨false, some "timeout", timeout, t + 1⟩
    | _ => waitLoop f timeout fuel (t + 1)

/-- `QwenImageGenerator.wait_for_completion` (`src/examples/quick_start.py`);
`QwenImageAPI.wait_for_completion` (`src/examples/api_integration.py`, lines
146-189) has the same loop structure with the same `break` on a transport
exception. -/
def wait_for_completion (f : Nat → PollResp) (timeout : Nat) : WaitResult :=
  waitLoop f timeout timeout 0

/-! ## batch_generation.generate_single (timing model)

`BatchGenerator.generate_single` (`src/examples/batch_generation.py`, lines
86-166) records `start_time` at function entry, spends `submitTime` ticks
loading the workflow and POSTing it, then sets `generation_start` and polls
while `time.time() - generation_start < self.config.timeout`.  On success it
reports `generation_time = time.time() - start_time = submitTime + t`; if the
loop exhausts, `error = "Generation timeout"` and `generation_time` keeps its
initial value `0`; any exception is caught by the outer `except`, which also
leaves `generation_time` at `0`. -/

structure SingleResult where
  success : Bool
  error : Option String
  generationTime : Nat
  pollTick : Nat
  deriving DecidableEq, Repr

def genLoop (submitTime : Nat) (f : Nat → PollResp) (timeout : Nat) :
    Nat → Nat → SingleResult
  | 0, t => ⟨false, some "Generation timeout", 0, t⟩
  | fuel + 1, t =>
    match f t with
    | PollResp.done => ⟨true, none, submitTime + t, t⟩
    | PollResp.exn => ⟨false, some "exception", 0, t⟩
    | _ => genLoop submitTime f timeout fuel (t + 1)

/-- Timing model of `BatchGenerator.generate_single`: submission (workflow
load plus POST, including any backoff) takes `submitTime` ticks measured from
`start_time`; the polling loop budget `timeout` is counted from
`generation_start`, i.e. from tick `submitTime` onwards. -/
def generate_single_timed (submitTime timeout : Nat) (f : Nat → PollResp) :
    SingleResult :=
  genLoop submitTime f timeout timeout 0

/-! ## api_integration.submit_generation -/

/-- One attempt of `QwenImageAPI.submit_generation`
(`src/examples/api_integration.py`, lines 121-144): the POST either returns
200 with a prompt id, a 429 rate-limit status, some other status code, or
raises a `requests` exception. -/
inductive SubmitResp where
  | ok (pid : String) : SubmitResp
  | rateLimited : SubmitResp
  | badStatus (code : Nat) : SubmitResp
  | exn : SubmitResp
  deriving DecidableEq, Repr

structure SubmitOutcome where
  promptId : Option String
  attempts : Nat
  deriving DecidableEq, Repr

/-- The `for attempt in range(self.max_retries)` loop of
`submit_generation`.  A 200 response returns the prompt id immediately;
every other outcome (429, other status, exception) falls through to the next
iteration; when the range is exhausted the function returns `None`.
`attempts` counts the POST requests actually issued. -/
def submitLoop (resp : Nat → SubmitResp) : Nat → Nat → SubmitOutcome
  | 0, a => ⟨none, a⟩
  | fuel + 1, a =>
    match resp a with
    | SubmitResp.ok pid => ⟨some pid, a + 1⟩
    | _ => submitLoop resp fuel (a + 1)

def submit_generation (resp : Nat → SubmitResp) (maxRetries : Nat) :
    SubmitOutcome :=
  submitLoop resp maxRetries 0

/-- The sleep issued before a retry of `submit_generation`:
`time.sleep(self.retry_delay * (attempt + 1))` (lines 135 and 142). -/
def backoff_delay (retryDelay : ℚ) (attempt : Nat) : ℚ :=
  retryDelay * (attempt + 1)

/-! ## batch_generation.run_batch (result collection and statistics) -/

/-- The per-job result dictionary built by `generate_single`
(`src/examples/batch_generation.py`, lines 91-99), restricted to the fields
the claims mention. -/
structure ResultRec where
  index : Nat
  success : Bool
  error : Option String
  generationTime : ℚ
  deriving DecidableEq, Repr

/-- Behaviour of the body of `generate_single`'s `try` block for one job:
it either runs to completion and produces a result dictionary, or raises an
exception with message `msg`. -/
inductive WorkerBehavior where
  | returns (r : ResultRec) : WorkerBehavior
  | raises (msg : String) : WorkerBehavior
  deriving DecidableEq, Repr

/-- The worker boundary of `generate_single` (lines 101-166): the
`except Exception as e` arm stores `str(e)` in the pre-initialised result
dictionary (whose `success` is `False` and `generation_time` is `0`) and
returns it instead of propagating the exception. -/
def generate_single_boundary (idx : Nat) (b : WorkerBehavior) : ResultRec :=
  match b with
  | WorkerBehavior.returns r => r
  | WorkerBehavior.raises msg => ⟨idx, false, some msg, 0⟩

/-- Aggregate counters of `BatchGenerator.stats` touched by `run_batch`. -/
structure BatchStats where
  total : Nat
  successful : Nat
  failed : Nat
  deriving DecidableEq, Repr

/-- What `future.result()` yields for one completed future inside
`run_batch`'s `as_completed` loop: either the worker's result dictionary or
an exception escaping the future. -/
inductive FutureOutcome where
  | ok (r : ResultRec) : FutureOutcome
  | err (msg : String) : FutureOutcome
  deriving DecidableEq, Repr

/-- The `for future in as_completed(future_to_index)` loop of
`BatchGenerator.run_batch` (lines 185-198): a returned result is appended to
`self.results` and bumps `successful` or `failed` according to its
`success` flag; an exception from `future.result()` is caught, logged and
bumps `failed` without appending a result.  The loop visits every submitted
future exactly once; completion order is nondeterministic in the source, and
the model processes the outcomes in submission order, which none of the
counted statistics depend on. -/
def collectLoop : List FutureOutcome → List ResultRec × Nat × Nat
  | [] => ([], 0, 0)
  | o :: rest =>
    let (rs, s, fl) := collectLoop rest
    match o with
    | FutureOutcome.ok r => (r :: rs, if r.success then s + 1 else s, if r.success then fl else fl + 1)
    | FutureOutcome.err _ => (rs, s, fl + 1)

/-- `BatchGenerator.run_batch` (lines 168-203): sets `stats["total"]` to the
number of prompts, submits one future per prompt, and folds the completed
futures through `collectLoop`. -/
def run_batch_collect (outs : List FutureOutcome) : List ResultRec × BatchStats :=
  ((collectLoop outs).1, ⟨outs.length, (collectLoop outs).2.1, (collectLoop outs).2.2⟩)

/-- `run_batch` on a batch whose per-job worker behaviours are given by
`bs`: each job index `i` is driven by `generate_single`, whose worker
boundary converts a raised exception into a failed result dictionary, so
`future.result()` never raises. -/
def run_batch_workers (bs : List WorkerBehavior) : List ResultRec × BatchStats :=
  run_batch_collect ((bs.enum).map fun p => FutureOutcome.ok (generate_single_boundary p.1 p.2))

/-! ## batch_generation.print_summary and test_performance.calculate_statistics -/

def meanQ (l : List ℚ) : Except String ℚ :=
  if l.length = 0 then Except.error "StatisticsError" else Except.ok (l.sum / l.length)

def medianQ (l : List ℚ) : Except String ℚ :=
  if l.length = 0 then Except.error "StatisticsError"
  else
    let s := l.mergeSort (· ≤ ·)
    if l.length % 2 = 1 then Except.ok (s.getD (l.length / 2) 0)
    else Except.ok ((s.getD (l.length / 2 - 1) 0 + s.getD (l.length / 2) 0) / 2)

def minQ (l : List ℚ) : Except String ℚ :=
  match l with
  | [] => Except.error "ValueError"
  | x :: xs => Except.ok (xs.foldl min x)

def maxQ (l : List ℚ) : Except String ℚ :=
  match l with
  | [] => Except.error "ValueError"
  | x :: xs => Except.ok (xs.foldl max x)

structure TimingStats where
  mean : ℚ
  median : ℚ
  minTime : ℚ
  maxTime : ℚ
  deriving DecidableEq, Repr

structure Summary where
  successRate : ℚ
  avgPerImage : ℚ
  timing : Option TimingStats
  deriving DecidableEq, Repr

/-- `BatchGenerator.print_summary` (`src/examples/batch_generation.py`,
lines 247-274).  The success-rate line divides by `stats['total']`
unconditionally (a `ZeroDivisionError` if the batch was empty), as does the
average-per-image line; the timing block over successful jobs is guarded by
`if self.stats['successful'] > 0`. -/
def print_summary (total successful : Nat) (totalTime : ℚ)
    (results : List ResultRec) : Except String Summary :=
  if total = 0 then Except.error "ZeroDivisionError"
  else
    let rate := (successful : ℚ) / (total : ℚ) * 100
    let avg := totalTime / (total : ℚ)
    if 0 < successful then
      let times := (results.filter (·.success)).map (·.generationTime)
      match meanQ times, medianQ times, minQ times, maxQ times with
      | Except.ok m, Except.ok md, Except.ok mn, Except.ok mx =>
          Except.ok ⟨rate, avg, some ⟨m, md, mn, mx⟩⟩
      | _, _, _, _ => Except.error "StatisticsError"
    else Except.ok ⟨rate, avg, none⟩

structure PerfStatsOut where
  successRate : ℚ
  timing : Option TimingStats
  deriving DecidableEq, Repr

/-- `PerformanceBenchmark.calculate_statistics`
(`src/benchmarks/test_performance.py`, lines 211-236): the success rate is
computed only when `total_requests > 0` (otherwise the initial `0` is kept),
and the generation-time block runs only when `generation_times` is
non-empty. -/
def calculate_statistics (totalRequests failedRequests : Nat)
    (times : List ℚ) : Except String PerfStatsOut :=
  let rate :=
    if 0 < totalRequests then
      ((totalRequests : ℚ) - (failedRequests : ℚ)) / (totalRequests : ℚ) * 100
    else 0
  if times.length ≠ 0 then
    match meanQ times, medianQ times, minQ times, maxQ times with
    | Except.ok m, Except.ok md, Except.ok mn, Except.ok mx =>
        Except.ok ⟨rate, some ⟨m, md, mn, mx⟩⟩
    | _, _, _, _ => Except.error "StatisticsError"
  else Except.ok ⟨rate, none⟩

/-! ## Worker pool scheduling (run_batch's ThreadPoolExecutor)

`run_batch` drives its jobs through
`ThreadPoolExecutor(max_workers=self.config.max_workers)`.  A job is active
(non-terminal, non-pending) exactly while a worker thread is executing
`generate_single` for it.  The executor's scheduling is modelled as a
transition system: a pending job may start only while fewer than
`maxWorkers` jobs are active, and an active job may finish at any time. -/

structure PoolState where
  pending : List Nat
  active : List Nat
  finished : List Nat
  deriving DecidableEq, Repr

inductive PoolStep (maxWorkers : Nat) : PoolState → PoolState → Prop where
  | start (j : Nat) (rest : List Nat) (s : PoolState) :
      s.pending = j :: rest → s.active.length < maxWorkers →
      PoolStep maxWorkers s ⟨rest, j :: s.active, s.finished⟩
  | finish (l1 l2 : List Nat) (j : Nat) (s : PoolState) :
      s.active = l1 ++ j :: l2 →
      PoolStep maxWorkers s ⟨s.pending, l1 ++ l2, j :: s.finished⟩

/-- `run_batch` submits every job before any worker starts, so the initial
state has all jobs pending and none active. -/
def initPool (jobs : List Nat) : PoolState :=
  ⟨jobs, [], []⟩

def PoolReachable (maxWorkers : Nat) (jobs : List Nat) : PoolState → Prop :=
  Relation.ReflTransGen (PoolStep maxWorkers) (initPool jobs)

/-! ## api_integration.prepare_workflow (heap model)

`QwenImageAPI.prepare_workflow` (`src/examples/api_integration.py`, lines
94-119) mutates a deep copy of a nested JSON workflow dictionary.  To make
the framing claim (the `base_workflow` argument is left unchanged)
non-vacuous, Python objects are modelled with explicit object identity: a
heap is a list of dictionary nodes addressed by position, a dictionary field
holds either an immutable primitive (string/int/float — observationally
immediate values in Python) or a reference to another node, and mutation
replaces the node at one address.  The workflows the function touches are
dictionary graphs; JSON arrays, which `prepare_workflow` never traverses or
mutates, are not modelled. -/

inductive Prim where
  | str (v : String) : Prim
  | int (v : Int) : Prim
  | rat (v : ℚ) : Prim
  deriving DecidableEq, Repr

inductive JVal where
  | prim (p : Prim) : JVal
  | ref (a : Nat) : JVal
  deriving DecidableEq, Repr

/-- A Python dictionary node: its fields in insertion order. -/
abbrev JNode := List (String × JVal)

abbrev Heap := List JNode

/-- `d[k]` lookup on one dictionary node. -/
def lookupKey (k : String) : JNode → Option JVal
  | [] => none
  | (k', v) :: rest => if k' = k then some v else lookupKey k rest

/-- `d[k] = v` on one dictionary node: replaces the binding in place if the
key is present, appends it otherwise (Python dict semantics). -/
def dictSet (k : String) (v : JVal) : JNode → JNode
  | [] => [(k, v)]
  | (k', v') :: rest => if k' = k then (k, v) :: rest else (k', v') :: dictSet k v rest

def getField (h : Heap) (a : Nat) (k : String) : Option JVal :=
  match h[a]? with
  | some fs => lookupKey k fs
  | none => none

/-- In-place mutation `h[a][k] = v`. -/
def setField (h : Heap) (a : Nat) (k : String) (v : JVal) : Option Heap :=
  match h[a]? with
  | some fs => some (h.set a (dictSet k v fs))
  | none => none

/-- One subscript step `obj[k]` that must yield a nested dictionary. -/
def navField (h : Heap) (a : Nat) (k : String) : Option Nat :=
  match getField h a k with
  | some (JVal.ref b) => some b
  | _ => none

/-- Chained subscripts `obj[k1][k2]…`. -/
def navPath (h : Heap) : Nat → List String → Option Nat
  | a, [] => some a
  | a, k :: ks =>
    match navField h a k with
    | some b => navPath h b ks
    | none => none

/-- Fresh rebuild of a list of fields, as performed by
`json.loads(json.dumps(...))`: primitives are kept, references are replaced
by references to freshly allocated copies of the referenced nodes.  `fuel`
bounds the recursion depth (JSON serialisation of a cyclic structure does
not terminate either). -/
def copyFields : Nat → Heap → JNode → Option (Heap × JNode)
  | 0, _, _ => none
  | _ + 1, h, [] => some (h, [])
  | fuel + 1, h, (k, JVal.prim p) :: rest =>
    match copyFields fuel h rest with
    | some (h1, rest') => some (h1, (k, JVal.prim p) :: rest')
    | none => none
  | fuel + 1, h, (k, JVal.ref b) :: rest =>
    match h[b]? with
    | some fs =>
      match copyFields fuel h fs with
      | some (h1, fs') =>
        match copyFields fuel (h1 ++ [fs']) rest with
        | some (h2, rest') => some (h2, (k, JVal.ref h1.length) :: rest')
        | none => none
      | none => none
    | none => none

/-- The deep copy `json.loads(json.dumps(base_workflow))` of line 100: the
node at `a` is serialised and rebuilt from fresh allocations. -/
def copyNode (fuel : Nat) (h : Heap) (a : Nat) : Option (Heap × Nat) :=
  match h[a]? with
  | some fs =>
    match copyFields fuel h fs with
    | some (h1, fs') => some (h1 ++ [fs'], h1.length)
    | none => none
  | none => none

/-- The `GenerationRequest` dataclass of `src/examples/api_integration.py`,
lines 20-29, with its defaults. -/
structure GenerationRequest where
  prompt : String
  seed : Option Int := none
  width : Int := 1328
  height : Int := 1328
  steps : Int := 8
  cfgScale : ℚ := 1
  batchSize : Int := 1
  deriving DecidableEq, Repr

/-- `request.seed if request.seed else int(time.time() * 1000) % 2**32`
(line 107): Python truthiness makes both `None` and `0` fall back to the
time-based seed; `nowMs` stands for `int(time.time() * 1000)`. -/
def resolveSeed (req : GenerationRequest) (nowMs : Nat) : Int :=
  match req.seed with
  | some s => if s = 0 then ((nowMs % 2 ^ 32 : Nat) : Int) else s
  | none => ((nowMs % 2 ^ 32 : Nat) : Int)

/-- `QwenImageAPI.prepare_workflow`: deep-copies `base_workflow`, then
assigns `workflow["input"]["workflow"]["6"]["inputs"]["text"]`, updates
node `"3"`'s `inputs` with `seed`/`steps`/`cfg`, updates node `"58"`'s
`inputs` with `width`/`height`/`batch_size`, and returns the copy.  A
missing key or a non-dictionary on a subscript path is a `KeyError`/
`TypeError` in Python, modelled as `none`. -/
def prepare_workflow (fuel : Nat) (h : Heap) (base : Nat)
    (req : GenerationRequest) (nowMs : Nat) : Option (Heap × Nat) :=
  (copyNode fuel h base).bind fun hw =>
  (navPath hw.1 hw.2 ["input", "workflow", "6", "inputs"]).bind fun n6 =>
  (setField hw.1 n6 "text" (JVal.prim (Prim.str req.prompt))).bind fun h2 =>
  (navPath h2 hw.2 ["input", "workflow", "3", "inputs"]).bind fun n3 =>
  (setField h2 n3 "seed" (JVal.prim (Prim.int (resolveSeed req nowMs)))).bind fun h3 =>
  (setField h3 n3 "steps" (JVal.prim (Prim.int req.steps))).bind fun h4 =>
  (setField h4 n3 "cfg" (JVal.prim (Prim.rat req.cfgScale))).bind fun h5 =>
  (navPath h5 hw.2 ["input", "workflow", "58", "inputs"]).bind fun n58 =>
  (setField h5 n58 "width" (JVal.prim (Prim.int req.width))).bind fun h6 =>
  (setField h6 n58 "height" (JVal.prim (Prim.int req.height))).bind fun h7 =>
  (setField h7 n58 "batch_size" (JVal.prim (Prim.int req.batchSize))).map fun h8 =>
  (h8, hw.2)

/-- Read `workflow[path…][k]` in a heap — used to observe the fields of the
returned workflow. -/
def readParam (h : Heap) (w : Nat) (path : List String) (k : String) : Option JVal :=
  (navPath h w path).bind fun a => getField h a k

/-- All references stored in the fields are at least `n`. -/
def FieldsGE (n : Nat) (fs : JNode) : Prop :=
  ∀ k b, (k, JVal.ref b) ∈ fs → n ≤ b

/-- Every node stored at an address `≥ n` only references addresses `≥ n`:
the region from `n` on is closed, so navigation starting there stays
there. -/
def HeapGE (n : Nat) (h : Heap) : Prop :=
  ∀ a fs, h[a]? = some fs → n ≤ a → FieldsGE n fs

/-- A small concrete workflow heap shaped like `example-request.json`:
address 0 is the base workflow. -/
def exampleHeap : Heap :=
  [ [("input", JVal.ref 1)],
    [("workflow", JVal.ref 2)],
    [("6", JVal.ref 3), ("3", JVal.ref 4), ("58", JVal.ref 5)],
    [("inputs", JVal.ref 6)],
    [("inputs", JVal.ref 7)],
    [("inputs", JVal.ref 8)],
    [("text", JVal.prim (Prim.str "old prompt"))],
    [("seed", JVal.prim (Prim.int 1)), ("steps", JVal.prim (Prim.int 20)),
      ("cfg", JVal.prim (Prim.rat 7))],
    [("width", JVal.prim (Prim.int 512)), ("height", JVal.prim (Prim.int 512)),
      ("batch_size", JVal.prim (Prim.int 1))] ]

def exampleReq : GenerationRequest :=
  { prompt := "new prompt", seed := some 12345, width := 1024, height := 768,
    steps := 8, cfgScale := 1, batchSize := 2 }

/-! ## Concrete remote behaviours used as test inputs -/

def pollAlwaysDone : Nat → PollResp := fun _ => PollResp.done

def pollAlwaysNotFound : Nat → PollResp := fun _ => PollResp.notFound

/-- The service loses the handle on the first poll and has the result ready
on the second. -/
def pollLostThenDone : Nat → PollResp :=
  fun t => if t = 0 then PollResp.notFound else PollResp.done

/-- The first poll raises a transport exception; every later poll would
report the job done. -/
def pollExnThenDone : Nat → PollResp :=
  fun t => if t = 0 then PollResp.exn else PollResp.done

def pollAlwaysExn : Nat → PollResp := fun _ => PollResp.exn

/-! ## Spec-side claim statements

The following `Prop`s transcribe, over the source-derived models above, what
the spec claims; they are stated from the spec's words so that the theorems
below can confirm or refute them against the embedded code. -/

/-- Spec claim C3: the per-job timeout is wall-clock time elapsed since
`submitted_at`, so a job can only report success if its total elapsed time
(submission attempts plus polling, which is what `generation_time` records)
is still within the timeout budget. -/
def TimeoutFromSubmittedAt : Prop :=
  ∀ (submitTime timeout : Nat) (f : Nat → PollResp),
    (generate_single_timed submitTime timeout f).success = true →
    (generate_single_timed submitTime timeout f).generationTime < timeout

/-- Spec claim C4: a poll reporting the previously accepted handle as not
found immediately forces the job to a terminal failed state — in
particular the job can never end successfully after such a poll. -/
def NotFoundImmediatelyFails : Prop :=
  ∀ (timeout : Nat) (f : Nat → PollResp),
    0 < timeout → f 0 = PollResp.notFound →
    (wait_for_completion f timeout).success = false

/-- Spec claim C5: a transient poll error with attempts remaining sends the
job back to in-flight and the poll is retried on the next tick, so a job
whose first poll raises and whose second poll reports completion ends
successfully. -/
def TransientPollErrorRetried : Prop :=
  ∀ (timeout : Nat) (f : Nat → PollResp),
    2 ≤ timeout → f 0 = PollResp.exn → f 1 = PollResp.done →
    (wait_for_completion f timeout).success = true

/-- Spec claim C6 (cap part): the retry backoff delay of the client as
configured (`retry_delay = 1.0`) is bounded above by some cap over all
attempt counts. -/
def BackoffCapped : Prop :=
  ∃ cap : ℚ, ∀ attempt : Nat, backoff_delay 1 attempt ≤ cap

end QwenImg

namespace QwenImg

/-! # Theorems -/

/-! ## C1: terminal accounting of run_batch -/

theorem collectLoop_counts (outs : List FutureOutcome) :
    (collectLoop outs).2.1 + (collectLoop outs).2.2 = outs.length := by
  induction outs with
  | nil => rfl
  | cons o rest ih =>
    rcases hc : collectLoop rest with ⟨rs, s, fl⟩
    rw [hc] at ih
    simp only at ih
    cases o with
    | ok r =>
      by_cases hs : r.success <;> simp [collectLoop, hc, hs] <;> omega
    | err m => simp [collectLoop, hc]; omega

/-- Claim C1: after `run_batch` returns, every submitted future has been
collected and the aggregate counters of terminal outcomes sum to the batch
total: `stats.successful + stats.failed = stats.total`, where
`stats.total` is the number of prompts submitted. -/
theorem run_batch_counters_sum (outs : List FutureOutcome) :
    (run_batch_collect outs).2.successful + (run_batch_collect outs).2.failed
      = (run_batch_collect outs).2.total ∧
    (run_batch_collect outs).2.total = outs.length := by
  refine ⟨?_, rfl⟩
  simpa [run_batch_collect] using collectLoop_counts outs

/-! ## C2: submission attempts never exceed max_retries -/

theorem submitLoop_le (resp : Nat → SubmitResp) :
    ∀ fuel a, (submitLoop resp fuel a).attempts ≤ a + fuel := by
  intro fuel
  induction fuel with
  | zero => intro a; simp [submitLoop]
  | succ n ih =>
    intro a
    have h1 := ih (a + 1)
    cases h : resp a <;> simp only [submitLoop, h] <;> omega

/-- Claim C2: `submit_generation` issues at most `max_retries` POST attempts
whatever the responses are, and a submission whose every attempt fails with
a transient transport error under `max_retries = 3` returns `None` (the job
then ends failed) after exactly 3 attempts. -/
theorem submit_generation_attempt_bound :
    (∀ (resp : Nat → SubmitResp) (maxRetries : Nat),
      (submit_generation resp maxRetries).attempts ≤ maxRetries) ∧
    submit_generation (fun _ => SubmitResp.exn) 3 = ⟨none, 3⟩ := by
  constructor
  · intro resp maxRetries
    simpa [submit_generation] using submitLoop_le resp maxRetries 0
  · rfl

/-! ## C3: the timeout budget starts at generation_start, not submitted_at -/

/-- Claim C3 counterexample: the claim that the per-job timeout is evaluated
relative to `submitted_at` is false.  With a submission phase of 5 ticks and
`timeout = 3`, a poll that finds the job done immediately yields a
successful result whose `generation_time` is 5, already past the 3-tick
budget — the code's clock only starts once submission has succeeded. -/
theorem timeout_not_from_submitted_at : ¬ TimeoutFromSubmittedAt := by
  intro h
  have h5 := h 5 3 pollAlwaysDone (by decide)
  have : generate_single_timed 5 3 pollAlwaysDone
      = ⟨true, none, 5, 0⟩ := by decide
  rw [this] at h5
  simp at h5

theorem genLoop_success_tick (S T : Nat) (f : Nat → PollResp) :
    ∀ fuel t, (genLoop S f T fuel t).success = true →
      t ≤ (genLoop S f T fuel t).pollTick ∧
      (genLoop S f T fuel t).pollTick < t + fuel ∧
      (genLoop S f T fuel t).generationTime = S + (genLoop S f T fuel t).pollTick := by
  intro fuel
  induction fuel with
  | zero => intro t h; simp [genLoop] at h
  | succ n ih =>
    intro t h
    cases hf : f t with
    | done => simp [genLoop, hf]
    | exn => simp only [genLoop, hf] at h; simp at h
    | httpErr c =>
      simp only [genLoop, hf] at h ⊢
      have h2 := ih (t + 1) h
      exact ⟨by omega, by omega, by omega⟩
    | notFound =>
      simp only [genLoop, hf] at h ⊢
      have h2 := ih (t + 1) h
      exact ⟨by omega, by omega, by omega⟩
    | running =>
      simp only [genLoop, hf] at h ⊢
      have h2 := ih (t + 1) h
      exact ⟨by omega, by omega, by omega⟩

/-- Claim C3 (amended): the per-job timeout budget of `generate_single`
starts at `generation_start`, i.e. only after submission has succeeded, and
covers only the polling phase: a successful job found the result at a poll
tick strictly below `timeout`, while its reported `generation_time`
additionally includes the whole submission phase on top of that tick. -/
theorem generate_single_timeout_from_poll_start (S T : Nat)
    (f : Nat → PollResp)
    (h : (generate_single_timed S T f).success = true) :
    (generate_single_timed S T f).pollTick < T ∧
    (generate_single_timed S T f).generationTime
      = S + (generate_single_timed S T f).pollTick := by
  have h2 := genLoop_success_tick S T f T 0
    (by simpa [generate_single_timed] using h)
  simp only [generate_single_timed]
  exact ⟨by omega, by omega⟩

theorem generate_single_timeout_from_poll_start_witness :
    (generate_single_timed 5 3 pollAlwaysDone).pollTick < 3 ∧
    (generate_single_timed 5 3 pollAlwaysDone).generationTime
      = 5 + (generate_single_timed 5 3 pollAlwaysDone).pollTick :=
  generate_single_timeout_from_poll_start 5 3 pollAlwaysDone (by decide)

/-! ## C4: an absent prompt_id is polled again, not failed immediately -/

/-- Claim C4 counterexample: a poll reporting the handle as not found does
not force the job to a terminal failed state.  With the service losing the
handle on the first poll and reporting completion on the second, the loop
simply sleeps and polls again, and the job ends successfully. -/
theorem not_found_does_not_fail_immediately : ¬ NotFoundImmediatelyFails := by
  intro h
  have h60 := h 60 pollLostThenDone (by decide) (by decide)
  have : wait_for_completion pollLostThenDone 60 = ⟨true, none, 1, 2⟩ := by decide
  rw [this] at h60
  simp at h60

theorem waitLoop_all_notFound (f : Nat → PollResp) (T : Nat) :
    ∀ fuel t, (∀ s, t ≤ s → s < t + fuel → f s = PollResp.notFound) →
      waitLoop f T fuel t = ⟨false, some "timeout", T, t + fuel⟩ := by
  intro fuel
  induction fuel with
  | zero => intro t _; simp [waitLoop]
  | succ n ih =>
    intro t h
    have hft : f t = PollResp.notFound := h t le_rfl (by omega)
    have hrec := ih (t + 1) (fun s h1 h2 => h s (by omega) (by omega))
    simp only [waitLoop, hft]
    rw [hrec]
    exact congrArg (WaitResult.mk false (some "timeout") T) (by omega)

/-- Claim C4 (amended): a poll reporting the prompt id absent from the
history is treated as "not finished yet": the loop sleeps and polls again on
the next tick, and only when the handle never appears within the timeout
budget does the job end, with the generic timeout failure (`success = False`,
`error = "timeout"`) after `timeout` polls — not with an immediate failure
on the first absent-handle poll. -/
theorem wait_not_found_keeps_polling (T : Nat) (f : Nat → PollResp)
    (h : ∀ t, t < T → f t = PollResp.notFound) :
    wait_for_completion f T = ⟨false, some "timeout", T, T⟩ := by
  have := waitLoop_all_notFound f T T 0 (fun s _ h2 => h s (by omega))
  simpa [wait_for_completion] using this

theorem wait_not_found_keeps_polling_witness :
    wait_for_completion pollAlwaysNotFound 4 = ⟨false, some "timeout", 4, 4⟩ :=
  wait_not_found_keeps_polling 4 pollAlwaysNotFound (fun _ _ => rfl)

/-! ## C5: a transient poll error aborts polling instead of retrying -/

/-- Claim C5 counterexample: a single transient poll error does drive the
job to a terminal state.  With the first poll raising a transport exception
and the second poll reporting the job done, the `except` arm `break`s out of
the loop after one poll and the job ends failed, although the claimed retry
on the next tick would have succeeded. -/
theorem poll_error_not_retried : ¬ TransientPollErrorRetried := by
  intro h
  have h60 := h 60 pollExnThenDone (by decide) (by decide) (by decide)
  have : wait_for_completion pollExnThenDone 60
      = ⟨false, some "timeout", 60, 1⟩ := by decide
  rw [this] at h60
  simp at h60

/-- Claim C5 (amended): a transport exception while checking status `break`s
out of the polling loop at once: the job ends in the terminal timeout
failure (`success = False`, `error = "timeout"`) after that single poll,
with no retry on a later tick. -/
theorem wait_poll_error_terminal (T : Nat) (f : Nat → PollResp)
    (hT : 0 < T) (hf : f 0 = PollResp.exn) :
    wait_for_completion f T = ⟨false, some "timeout", T, 1⟩ := by
  cases T with
  | zero => omega
  | succ n => simp only [wait_for_completion, waitLoop, hf]

theorem wait_poll_error_terminal_witness :
    wait_for_completion pollAlwaysExn 7 = ⟨false, some "timeout", 7, 1⟩ :=
  wait_poll_error_terminal 7 pollAlwaysExn (by decide) rfl

/-! ## C6: the backoff grows but has no cap -/

/-- Claim C6 counterexample: the retry delay `retry_delay * (attempt + 1)`
of `submit_generation` grows linearly with the attempt count and is bounded
by no cap: for any candidate cap, the delay at attempt `⌈cap⌉` already
exceeds it.  No `backoff_cap` parameter exists in the implementation. -/
theorem backoff_delay_not_capped : ¬ BackoffCapped := by
  rintro ⟨cap, hcap⟩
  have h1 := hcap (Nat.ceil cap)
  have h2 : (Nat.ceil cap : ℚ) + 1 ≤ cap := by
    simpa [backoff_delay] using h1
  have h3 : cap ≤ (Nat.ceil cap : ℚ) := Nat.le_ceil cap
  linarith

/-- Claim C6 (amended): the backoff delay `retry_delay * (attempt + 1)` is
strictly positive whenever `retry_delay` is positive (the default is
`1.0`), grows strictly with the attempt count, and — although no
`backoff_cap` parameter exists — every delay actually slept in a run is at
most `retry_delay * max_retries`, because the attempt counter stays below
`max_retries`. -/
theorem backoff_delay_positive_growing (rd : ℚ) (a mr : Nat)
    (hrd : 0 < rd) :
    0 < backoff_delay rd a ∧
    backoff_delay rd a < backoff_delay rd (a + 1) ∧
    (a < mr → backoff_delay rd a ≤ rd * mr) := by
  refine ⟨?_, ?_, ?_⟩
  · have : (0 : ℚ) < (a : ℚ) + 1 := by positivity
    exact mul_pos hrd this
  · have : ((a : ℚ) + 1) < ((a : ℚ) + 1 + 1) := by linarith
    unfold backoff_delay
    push_cast
    nlinarith
  · intro hmr
    have : ((a : ℚ) + 1) ≤ (mr : ℚ) := by
      have := Nat.succ_le_of_lt hmr
      exact_mod_cast this
    unfold backoff_delay
    nlinarith

theorem backoff_delay_positive_growing_witness :
    0 < backoff_delay 1 0 ∧
    backoff_delay 1 0 < backoff_delay 1 1 ∧
    (0 < 3 → backoff_delay 1 0 ≤ 1 * 3) :=
  backoff_delay_positive_growing 1 0 3 (by norm_num)

/-! ## C7: a worker fault is isolated to its job -/

theorem collectLoop_ok_results (l : List ResultRec) :
    (collectLoop (l.map FutureOutcome.ok)).1 = l := by
  induction l with
  | nil => rfl
  | cons r rest ih =>
    rcases hc : collectLoop (rest.map FutureOutcome.ok) with ⟨rs, s, fl⟩
    rw [hc] at ih
    simp only at ih
    simp [collectLoop, hc, ih]

/-- Claim C7: an unexpected exception raised while driving one job is caught
at the worker boundary of `generate_single`: that job's result record is
marked failed with the exception message as diagnostic error, and
`run_batch` still collects a result for every job of the batch, with the
terminal counters summing to the batch total. -/
theorem run_batch_worker_fault_isolated (bs : List WorkerBehavior) :
    (run_batch_workers bs).1.length = bs.length ∧
    (∀ (i : Nat) (m : String), bs[i]? = some (WorkerBehavior.raises m) →
      (run_batch_workers bs).1[i]? = some (ResultRec.mk i false (some m) 0)) ∧
    (run_batch_workers bs).2.successful + (run_batch_workers bs).2.failed
      = (run_batch_workers bs).2.total := by
  have hmap : (bs.enum).map (fun p => FutureOutcome.ok (generate_single_boundary p.1 p.2))
      = ((bs.enum).map fun p => generate_single_boundary p.1 p.2).map FutureOutcome.ok := by
    simp [List.map_map, Function.comp]
  have hres : (run_batch_workers bs).1
      = (bs.enum).map fun p => generate_single_boundary p.1 p.2 := by
    unfold run_batch_workers run_batch_collect
    rw [hmap, collectLoop_ok_results]
  refine ⟨?_, ?_, ?_⟩
  · rw [hres]; simp
  · intro i m hi
    rw [hres]
    rw [List.getElem?_map, List.getElem?_enum]
    simp [hi, generate_single_boundary]
  · unfold run_batch_workers run_batch_collect
    have := collectLoop_counts ((bs.enum).map fun p =>
      FutureOutcome.ok (generate_single_boundary p.1 p.2))
    simpa using this

theorem run_batch_worker_fault_isolated_witness :
    (run_batch_workers [WorkerBehavior.raises "boom",
        WorkerBehavior.returns ⟨1, true, none, 2⟩]).1[0]?
      = some ⟨0, false, some "boom", 0⟩ :=
  (run_batch_worker_fault_isolated _).2.1 0 "boom" (by decide)

/-! ## C8: the zero-success summary raises no division error -/

/-- Claim C8: for a completed batch with at least one job and zero
successes, printing the summary raises no division error: the success rate
evaluates to `0`, and the timing statistics over successful jobs are
omitted (`none`); `calculate_statistics` of the benchmark likewise guards
its statistics block, so with at least one (failed) request it returns its
rate without error and without timing statistics. -/
theorem zero_success_summary_safe (total successful : Nat) (totalTime : ℚ)
    (results : List ResultRec) (totalRequests failedRequests : Nat)
    (htot : 1 ≤ total) (hsucc : successful = 0) (hreq : 1 ≤ totalRequests) :
    print_summary total successful totalTime results
      = Except.ok ⟨0, totalTime / (total : ℚ), none⟩ ∧
    calculate_statistics totalRequests failedRequests []
      = Except.ok ⟨((totalRequests : ℚ) - (failedRequests : ℚ))
          / (totalRequests : ℚ) * 100, none⟩ := by
  constructor
  · subst hsucc
    simp [print_summary, show ¬ total = 0 by omega]
  · simp [calculate_statistics, show 0 < totalRequests by omega]

theorem zero_success_summary_safe_witness :
    print_summary 2 0 6 [⟨0, false, some "e", 0⟩]
      = Except.ok ⟨0, 6 / (2 : ℚ), none⟩ ∧
    calculate_statistics 2 2 []
      = Except.ok ⟨(((2 : Nat) : ℚ) - ((2 : Nat) : ℚ)) / ((2 : Nat) : ℚ) * 100, none⟩ :=
  zero_success_summary_safe 2 0 6 [⟨0, false, some "e", 0⟩] 2 2
    (by norm_num) rfl (by norm_num)

/-! ## C9: bounded concurrency of the worker pool -/

/-- Claim C9: in every state reachable by the worker-pool scheduling of
`run_batch`, at most `max_workers` jobs are active (non-terminal,
non-pending) simultaneously; the remaining jobs wait in the pending
queue. -/
theorem pool_bounded_concurrency (mw : Nat) (jobs : List Nat)
    (s : PoolState) (h : PoolReachable mw jobs s) :
    s.active.length ≤ mw := by
  induction h with
  | refl => simp [initPool]
  | tail hr hstep ih =>
    cases hstep with
    | start j rest s' h1 h2 =>
      simp only [List.length_cons]
      omega
    | finish l1 l2 j s' h1 =>
      rw [h1] at ih
      simp only [List.length_append, List.length_cons] at ih ⊢
      omega

theorem pool_bounded_concurrency_witness :
    (initPool [0, 1, 2]).active.length ≤ 2 :=
  pool_bounded_concurrency 2 [0, 1, 2] (initPool [0, 1, 2])
    Relation.ReflTransGen.refl

/-! ## C10: prepare_workflow deep-copies and leaves the base unchanged -/

theorem lookupKey_mem (k : String) (v : JVal) :
    ∀ fs : JNode, lookupKey k fs = some v → (k, v) ∈ fs := by
  intro fs
  induction fs with
  | nil => intro hl; simp [lookupKey] at hl
  | cons kv rest ih =>
    intro hl
    obtain ⟨k', v'⟩ := kv
    by_cases hk : k' = k
    · subst hk
      simp [lookupKey] at hl
      subst hl
      exact List.mem_cons_self _ _
    · simp only [lookupKey, if_neg hk] at hl
      exact List.mem_cons_of_mem _ (ih hl)

theorem dictSet_mem (k : String) (v : JVal) :
    ∀ (fs : JNode) (x : String × JVal), x ∈ dictSet k v fs → x = (k, v) ∨ x ∈ fs := by
  intro fs
  induction fs with
  | nil => intro x hx; simp [dictSet] at hx; exact Or.inl hx
  | cons kv rest ih =>
    intro x hx
    obtain ⟨k', v'⟩ := kv
    by_cases hk : k' = k
    · simp only [dictSet, if_pos hk, List.mem_cons] at hx
      rcases hx with h1 | h2
      · exact Or.inl h1
      · exact Or.inr (List.mem_cons_of_mem _ h2)
    · simp only [dictSet, if_neg hk, List.mem_cons] at hx
      rcases hx with h1 | h2
      · exact Or.inr (by simp [h1])
      · rcases ih x h2 with h3 | h4
        · exact Or.inl h3
        · exact Or.inr (List.mem_cons_of_mem _ h4)

theorem lookupKey_dictSet_self (k : String) (v : JVal) :
    ∀ fs : JNode, lookupKey k (dictSet k v fs) = some v := by
  intro fs
  induction fs with
  | nil => simp [dictSet, lookupKey]
  | cons kv rest ih =>
    obtain ⟨k', v'⟩ := kv
    by_cases hk : k' = k
    · simp [dictSet, hk, lookupKey]
    · simp [dictSet, hk, lookupKey, ih]

theorem lookupKey_dictSet_ne (k k' : String) (v : JVal) (hk : k' ≠ k) :
    ∀ fs : JNode, lookupKey k' (dictSet k v fs) = lookupKey k' fs := by
  intro fs
  induction fs with
  | nil => simp [dictSet, lookupKey, Ne.symm hk]
  | cons kv rest ih =>
    obtain ⟨k'', v''⟩ := kv
    by_cases h2 : k'' = k
    · subst h2
      simp [dictSet, lookupKey, Ne.symm hk]
    · simp [dictSet, h2, lookupKey, ih]

theorem setField_length (h h' : Heap) (a : Nat) (k : String) (v : JVal)
    (hs : setField h a k v = some h') : h'.length = h.length := by
  unfold setField at hs
  cases hg : h[a]? with
  | none => rw [hg] at hs; simp at hs
  | some fs =>
    rw [hg] at hs
    simp at hs
    subst hs
    simp

theorem setField_getElem_ne (h h' : Heap) (a : Nat) (k : String) (v : JVal)
    (hs : setField h a k v = some h') (b : Nat) (hb : b ≠ a) :
    h'[b]? = h[b]? := by
  unfold setField at hs
  cases hg : h[a]? with
  | none => rw [hg] at hs; simp at hs
  | some fs =>
    rw [hg] at hs
    simp at hs
    subst hs
    exact List.getElem?_set_ne (Ne.symm hb)

theorem getField_setField_self (h h' : Heap) (a : Nat) (k : String) (v : JVal)
    (hs : setField h a k v = some h') : getField h' a k = some v := by
  unfold setField at hs
  cases hg : h[a]? with
  | none => rw [hg] at hs; simp at hs
  | some fs =>
    rw [hg] at hs
    simp at hs
    subst hs
    have ha : a < h.length := (List.getElem?_eq_some_iff.mp hg).1
    unfold getField
    rw [List.getElem?_set_self ha]
    exact lookupKey_dictSet_self k v fs

theorem getField_setField_ne_key (h h' : Heap) (a : Nat) (k k' : String) (v : JVal)
    (hs : setField h a k v = some h') (hk : k' ≠ k) (b : Nat) :
    getField h' b k' = getField h b k' := by
  by_cases hb : b = a
  · subst hb
    unfold setField at hs
    cases hg : h[b]? with
    | none => rw [hg] at hs; simp at hs
    | some fs =>
      rw [hg] at hs
      simp at hs
      subst hs
      have hblt : b < h.length := (List.getElem?_eq_some_iff.mp hg).1
      unfold getField
      rw [List.getElem?_set_self hblt, hg]
      exact lookupKey_dictSet_ne k k' v hk fs
  · unfold getField
    rw [setField_getElem_ne h h' a k v hs b hb]

theorem navField_setField_ne_key (h h' : Heap) (a : Nat) (k k' : String) (v : JVal)
    (hs : setField h a k v = some h') (hk : k' ≠ k) (b : Nat) :
    navField h' b k' = navField h b k' := by
  unfold navField
  rw [getField_setField_ne_key h h' a k k' v hs hk b]

theorem navPath_setField_ne_key (h h' : Heap) (a : Nat) (k : String) (v : JVal)
    (hs : setField h a k v = some h') :
    ∀ (p : List String) (b : Nat), (∀ k' ∈ p, k' ≠ k) →
      navPath h' b p = navPath h b p := by
  intro p
  induction p with
  | nil => intro b _; rfl
  | cons k' ks ih =>
    intro b hp
    have h1 : navField h' b k' = navField h b k' :=
      navField_setField_ne_key h h' a k k' v hs (hp k' (by simp)) b
    simp only [navPath]
    rw [h1]
    cases hn : navField h b k' with
    | none => rfl
    | some c => exact ih c (fun x hx => hp x (by simp [hx]))

theorem fieldsGE_mono (m n : Nat) (fs : JNode) (hmn : m ≤ n)
    (hg : FieldsGE n fs) : FieldsGE m fs :=
  fun k b hmem => le_trans hmn (hg k b hmem)

theorem setField_heapGE (h h' : Heap) (a : Nat) (k : String) (p : Prim) (n : Nat)
    (hs : setField h a k (JVal.prim p) = some h') (hg : HeapGE n h) :
    HeapGE n h' := by
  intro b fs hb hnb
  by_cases hba : b = a
  · subst hba
    unfold setField at hs
    cases hget : h[b]? with
    | none => rw [hget] at hs; simp at hs
    | some fs0 =>
      rw [hget] at hs
      simp at hs
      subst hs
      have hblt : b < h.length := (List.getElem?_eq_some_iff.mp hget).1
      rw [List.getElem?_set_self hblt] at hb
      simp at hb
      subst hb
      intro k' c hmem
      rcases dictSet_mem k (JVal.prim p) fs0 (k', JVal.ref c) hmem with h1 | h2
      · simp at h1
      · exact hg b fs0 hget hnb k' c h2
  · rw [setField_getElem_ne h h' a k _ hs b hba] at hb
    exact hg b fs hb hnb

theorem navField_ge (n : Nat) (h : Heap) (a b : Nat) (k : String)
    (hg : HeapGE n h) (ha : n ≤ a) (hn : navField h a k = some b) : n ≤ b := by
  unfold navField getField at hn
  cases hget : h[a]? with
  | none => rw [hget] at hn; simp at hn
  | some fs =>
    rw [hget] at hn
    simp only at hn
    cases hl : lookupKey k fs with
    | none => rw [hl] at hn; simp at hn
    | some v =>
      rw [hl] at hn
      cases v with
      | prim p => simp at hn
      | ref c =>
        simp at hn
        subst hn
        exact hg a fs hget ha k _ (lookupKey_mem k _ fs hl)

theorem navPath_ge (n : Nat) (h : Heap) (hg : HeapGE n h) :
    ∀ (p : List String) (a b : Nat), n ≤ a → navPath h a p = some b → n ≤ b := by
  intro p
  induction p with
  | nil =>
    intro a b ha hn
    simp [navPath] at hn
    omega
  | cons k ks ih =>
    intro a b ha hn
    simp only [navPath] at hn
    cases hf : navField h a k with
    | none => rw [hf] at hn; simp at hn
    | some c =>
      rw [hf] at hn
      simp only at hn
      exact ih c b (navField_ge n h a c k hg ha hf) hn

theorem heapGE_of_append (h : Heap) (d : List JNode)
    (hd : ∀ nd ∈ d, FieldsGE h.length nd) : HeapGE h.length (h ++ d) := by
  intro a fs hget ha
  rw [List.getElem?_append_right ha] at hget
  exact hd fs (List.getElem?_mem hget)

/-- Every heap produced by `copyFields` extends the input heap with nodes
whose references stay inside the freshly allocated region, and the
rewritten fields reference only that region. -/
theorem copyFields_spec :
    ∀ (fuel : Nat) (h : Heap) (fs h1 : _) (fs' : JNode),
      copyFields fuel h fs = some (h1, fs') →
      (∃ d, h1 = h ++ d ∧ ∀ nd ∈ d, FieldsGE h.length nd) ∧
      FieldsGE h.length fs' := by
  intro fuel
  induction fuel with
  | zero => intro h fs h1 fs' hc; simp [copyFields] at hc
  | succ n ih =>
    intro h fs h1 fs' hc
    match fs with
    | [] =>
      simp [copyFields] at hc
      obtain ⟨rfl, rfl⟩ := hc
      refine ⟨⟨[], by simp, by simp⟩, ?_⟩
      intro k b hb
      simp at hb
    | (k, JVal.prim p) :: rest =>
      simp only [copyFields] at hc
      cases hrec : copyFields n h rest with
      | none => rw [hrec] at hc; simp at hc
      | some pr =>
        obtain ⟨hA, rest'⟩ := pr
        rw [hrec] at hc
        simp at hc
        obtain ⟨rfl, rfl⟩ := hc
        obtain ⟨⟨d, rfl, hd⟩, hge⟩ := ih h rest hA rest' hrec
        refine ⟨⟨d, rfl, hd⟩, ?_⟩
        intro k' b hb
        rcases List.mem_cons.mp hb with h1 | h2
        · simp at h1
        · exact hge k' b h2
    | (k, JVal.ref b0) :: rest =>
      simp only [copyFields] at hc
      cases hget : h[b0]? with
      | none => rw [hget] at hc; simp at hc
      | some fs0 =>
        rw [hget] at hc
        simp only at hc
        cases hrec1 : copyFields n h fs0 with
        | none => rw [hrec1] at hc; simp at hc
        | some pr1 =>
          obtain ⟨hA, fs0'⟩ := pr1
          rw [hrec1] at hc
          simp only at hc
          cases hrec2 : copyFields n (hA ++ [fs0']) rest with
          | none => rw [hrec2] at hc; simp at hc
          | some pr2 =>
            obtain ⟨hB, rest'⟩ := pr2
            rw [hrec2] at hc
            simp at hc
            obtain ⟨rfl, rfl⟩ := hc
            obtain ⟨⟨d1, rfl, hd1⟩, hge1⟩ := ih h fs0 hA fs0' hrec1
            obtain ⟨⟨d2, hB2, hd2⟩, hge2⟩ := ih (h ++ d1 ++ [fs0']) rest hB rest' hrec2
            have hlen : h.length ≤ (h ++ d1 ++ [fs0']).length := by
              simp
            constructor
            · refine ⟨d1 ++ [fs0'] ++ d2, ?_, ?_⟩
              · rw [hB2]; simp
              · intro nd hnd
                rcases List.mem_append.mp hnd with hnd1 | hnd2
                · rcases List.mem_append.mp hnd1 with hnd3 | hnd4
                  · exact hd1 nd hnd3
                  · simp at hnd4; subst hnd4; exact hge1
                · exact fieldsGE_mono _ _ nd hlen (hd2 nd hnd2)
            · intro k' c hmem
              rcases List.mem_cons.mp hmem with h1 | h2
              · obtain ⟨h1a, h1b⟩ := Prod.mk.injEq .. |>.mp h1
                obtain rfl := (JVal.ref.injEq .. |>.mp h1b)
                simp
              · exact fieldsGE_mono _ _ rest' hlen hge2 k' c h2

/-- `copyNode` extends the heap with a closed fresh region and returns a
fresh root address. -/
theorem copyNode_spec (fuel : Nat) (h : Heap) (a : Nat) (h1 : Heap) (w : Nat)
    (hc : copyNode fuel h a = some (h1, w)) :
    (∃ d, h1 = h ++ d ∧ ∀ nd ∈ d, FieldsGE h.length nd) ∧ h.length ≤ w := by
  unfold copyNode at hc
  cases hget : h[a]? with
  | none => rw [hget] at hc; simp at hc
  | some fs =>
    rw [hget] at hc
    simp only at hc
    cases hrec : copyFields fuel h fs with
    | none => rw [hrec] at hc; simp at hc
    | some pr =>
      obtain ⟨hA, fs'⟩ := pr
      rw [hrec] at hc
      simp at hc
      obtain ⟨rfl, rfl⟩ := hc
      obtain ⟨⟨d, rfl, hd⟩, hge⟩ := copyFields_spec fuel h fs hA fs' hrec
      constructor
      · refine ⟨d ++ [fs'], by simp, ?_⟩
        intro nd hnd
        rcases List.mem_append.mp hnd with h1 | h2
        · exact hd nd h1
        · simp at h2; subst h2; exact hge
      · simp

/-- One `d[k] = primitive` assignment at an address inside the fresh region
keeps the region closed, keeps the heap length, and leaves every node below
`n` untouched. -/
theorem setStep (h h' : Heap) (a : Nat) (k : String) (p : Prim) (n : Nat)
    (hs : setField h a k (JVal.prim p) = some h') (hg : HeapGE n h)
    (ha : n ≤ a) :
    HeapGE n h' ∧ h'.length = h.length ∧ ∀ b, b < n → h'[b]? = h[b]? :=
  ⟨setField_heapGE h h' a k p n hs hg,
   setField_length h h' a k _ hs,
   fun b hb => setField_getElem_ne h h' a k _ hs b (by omega)⟩

/-- Claim C10: whenever `prepare_workflow` succeeds it returns a freshly
allocated copy of the workflow (its address lies beyond the input heap) in
which the request's `prompt`, resolved `seed`, `steps`, `cfg_scale`,
`width`, `height` and `batch_size` have been applied at the nodes the
source assigns them to, while every node of the input heap — in particular
every node of the `base_workflow` argument — is left completely
unchanged. -/
theorem prepare_workflow_frame_and_params (fuel : Nat) (h : Heap)
    (base : Nat) (req : GenerationRequest) (nowMs : Nat) (h' : Heap) (w : Nat)
    (hp : prepare_workflow fuel h base req nowMs = some (h', w)) :
    (∀ b, b < h.length → h'[b]? = h[b]?) ∧
    h.length ≤ w ∧
    readParam h' w ["input", "workflow", "6", "inputs"] "text"
      = some (JVal.prim (Prim.str req.prompt)) ∧
    readParam h' w ["input", "workflow", "3", "inputs"] "seed"
      = some (JVal.prim (Prim.int (resolveSeed req nowMs))) ∧
    readParam h' w ["input", "workflow", "3", "inputs"] "steps"
      = some (JVal.prim (Prim.int req.steps)) ∧
    readParam h' w ["input", "workflow", "3", "inputs"] "cfg"
      = some (JVal.prim (Prim.rat req.cfgScale)) ∧
    readParam h' w ["input", "workflow", "58", "inputs"] "width"
      = some (JVal.prim (Prim.int req.width)) ∧
    readParam h' w ["input", "workflow", "58", "inputs"] "height"
      = some (JVal.prim (Prim.int req.height)) ∧
    readParam h' w ["input", "workflow", "58", "inputs"] "batch_size"
      = some (JVal.prim (Prim.int req.batchSize)) := by
  unfold prepare_workflow at hp
  rw [Option.bind_eq_some] at hp
  obtain ⟨⟨hc1, w0⟩, hcopy, hp⟩ := hp
  simp only at hp
  rw [Option.bind_eq_some] at hp
  obtain ⟨n6, hnav6, hp⟩ := hp
  rw [Option.bind_eq_some] at hp
  obtain ⟨h2, hset_text, hp⟩ := hp
  rw [Option.bind_eq_some] at hp
  obtain ⟨n3, hnav3, hp⟩ := hp
  rw [Option.bind_eq_some] at hp
  obtain ⟨h3, hset_seed, hp⟩ := hp
  rw [Option.bind_eq_some] at hp
  obtain ⟨h4, hset_steps, hp⟩ := hp
  rw [Option.bind_eq_some] at hp
  obtain ⟨h5, hset_cfg, hp⟩ := hp
  rw [Option.bind_eq_some] at hp
  obtain ⟨n58, hnav58, hp⟩ := hp
  rw [Option.bind_eq_some] at hp
  obtain ⟨h6, hset_width, hp⟩ := hp
  rw [Option.bind_eq_some] at hp
  obtain ⟨h7, hset_height, hp⟩ := hp
  rw [Option.map_eq_some'] at hp
  obtain ⟨h8, hset_batch, hp⟩ := hp
  rw [Prod.mk.injEq] at hp
  obtain ⟨rfl, rfl⟩ := hp
  obtain ⟨⟨d, rfl, hd⟩, hwge⟩ := copyNode_spec fuel h base hc1 w0 hcopy
  have hg1 : HeapGE h.length (h ++ d) := heapGE_of_append h d hd
  have hn6ge : h.length ≤ n6 :=
    navPath_ge h.length (h ++ d) hg1 _ w0 n6 hwge hnav6
  have s1 := setStep (h ++ d) h2 n6 "text" (Prim.str req.prompt) h.length
    hset_text hg1 hn6ge
  have hn3ge : h.length ≤ n3 :=
    navPath_ge h.length h2 s1.1 _ w0 n3 hwge hnav3
  have s2 := setStep h2 h3 n3 "seed" (Prim.int (resolveSeed req nowMs))
    h.length hset_seed s1.1 hn3ge
  have s3 := setStep h3 h4 n3 "steps" (Prim.int req.steps) h.length
    hset_steps s2.1 hn3ge
  have s4 := setStep h4 h5 n3 "cfg" (Prim.rat req.cfgScale) h.length
    hset_cfg s3.1 hn3ge
  have hn58ge : h.length ≤ n58 :=
    navPath_ge h.length h5 s4.1 _ w0 n58 hwge hnav58
  have s5 := setStep h5 h6 n58 "width" (Prim.int req.width) h.length
    hset_width s4.1 hn58ge
  have s6 := setStep h6 h7 n58 "height" (Prim.int req.height) h.length
    hset_height s5.1 hn58ge
  have s7 := setStep h7 h8 n58 "batch_size" (Prim.int req.batchSize) h.length
    hset_batch s6.1 hn58ge
  have hp6 : navPath h8 w0 ["input", "workflow", "6", "inputs"] = some n6 := by
    rw [navPath_setField_ne_key h7 h8 n58 "batch_size" _ hset_batch _ w0 (by decide),
      navPath_setField_ne_key h6 h7 n58 "height" _ hset_height _ w0 (by decide),
      navPath_setField_ne_key h5 h6 n58 "width" _ hset_width _ w0 (by decide),
      navPath_setField_ne_key h4 h5 n3 "cfg" _ hset_cfg _ w0 (by decide),
      navPath_setField_ne_key h3 h4 n3 "steps" _ hset_steps _ w0 (by decide),
      navPath_setField_ne_key h2 h3 n3 "seed" _ hset_seed _ w0 (by decide),
      navPath_setField_ne_key (h ++ d) h2 n6 "text" _ hset_text _ w0 (by decide)]
    exact hnav6
  have hp3 : navPath h8 w0 ["input", "workflow", "3", "inputs"] = some n3 := by
    rw [navPath_setField_ne_key h7 h8 n58 "batch_size" _ hset_batch _ w0 (by decide),
      navPath_setField_ne_key h6 h7 n58 "height" _ hset_height _ w0 (by decide),
      navPath_setField_ne_key h5 h6 n58 "width" _ hset_width _ w0 (by decide),
      navPath_setField_ne_key h4 h5 n3 "cfg" _ hset_cfg _ w0 (by decide),
      navPath_setField_ne_key h3 h4 n3 "steps" _ hset_steps _ w0 (by decide),
      navPath_setField_ne_key h2 h3 n3 "seed" _ hset_seed _ w0 (by decide)]
    exact hnav3
  have hp58 : navPath h8 w0 ["input", "workflow", "58", "inputs"] = some n58 := by
    rw [navPath_setField_ne_key h7 h8 n58 "batch_size" _ hset_batch _ w0 (by decide),
      navPath_setField_ne_key h6 h7 n58 "height" _ hset_height _ w0 (by decide),
      navPath_setField_ne_key h5 h6 n58 "width" _ hset_width _ w0 (by decide)]
    exact hnav58
  have htext : getField h8 n6 "text" = some (JVal.prim (Prim.str req.prompt)) := by
    rw [getField_setField_ne_key h7 h8 n58 "batch_size" "text" _ hset_batch (by decide) n6,
      getField_setField_ne_key h6 h7 n58 "height" "text" _ hset_height (by decide) n6,
      getField_setField_ne_key h5 h6 n58 "width" "text" _ hset_width (by decide) n6,
      getField_setField_ne_key h4 h5 n3 "cfg" "text" _ hset_cfg (by decide) n6,
      getField_setField_ne_key h3 h4 n3 "steps" "text" _ hset_steps (by decide) n6,
      getField_setField_ne_key h2 h3 n3 "seed" "text" _ hset_seed (by decide) n6]
    exact getField_setField_self (h ++ d) h2 n6 "text" _ hset_text
  have hseed : getField h8 n3 "seed"
      = some (JVal.prim (Prim.int (resolveSeed req nowMs))) := by
    rw [getField_setField_ne_key h7 h8 n58 "batch_size" "seed" _ hset_batch (by decide) n3,
      getField_setField_ne_key h6 h7 n58 "height" "seed" _ hset_height (by decide) n3,
      getField_setField_ne_key h5 h6 n58 "width" "seed" _ hset_width (by decide) n3,
      getField_setField_ne_key h4 h5 n3 "cfg" "seed" _ hset_cfg (by decide) n3,
      getField_setField_ne_key h3 h4 n3 "steps" "seed" _ hset_steps (by decide) n3]
    exact getField_setField_self h2 h3 n3 "seed" _ hset_seed
  have hsteps : getField h8 n3 "steps"
      = some (JVal.prim (Prim.int req.steps)) := by
    rw [getField_setField_ne_key h7 h8 n58 "batch_size" "steps" _ hset_batch (by decide) n3,
      getField_setField_ne_key h6 h7 n58 "height" "steps" _ hset_height (by decide) n3,
      getField_setField_ne_key h5 h6 n58 "width" "steps" _ hset_width (by decide) n3,
      getField_setField_ne_key h4 h5 n3 "cfg" "steps" _ hset_cfg (by decide) n3]
    exact getField_setField_self h3 h4 n3 "steps" _ hset_steps
  have hcfg : getField h8 n3 "cfg"
      = some (JVal.prim (Prim.rat req.cfgScale)) := by
    rw [getField_setField_ne_key h7 h8 n58 "batch_size" "cfg" _ hset_batch (by decide) n3,
      getField_setField_ne_key h6 h7 n58 "height" "cfg" _ hset_height (by decide) n3,
      getField_setField_ne_key h5 h6 n58 "width" "cfg" _ hset_width (by decide) n3]
    exact getField_setField_self h4 h5 n3 "cfg" _ hset_cfg
  have hwidth : getField h8 n58 "width"
      = some (JVal.prim (Prim.int req.width)) := by
    rw [getField_setField_ne_key h7 h8 n58 "batch_size" "width" _ hset_batch (by decide) n58,
      getField_setField_ne_key h6 h7 n58 "height" "width" _ hset_height (by decide) n58]
    exact getField_setField_self h5 h6 n58 "width" _ hset_width
  have hheight : getField h8 n58 "height"
      = some (JVal.prim (Prim.int req.height)) := by
    rw [getField_setField_ne_key h7 h8 n58 "batch_size" "height" _ hset_batch (by decide) n58]
    exact getField_setField_self h6 h7 n58 "height" _ hset_height
  have hbatch : getField h8 n58 "batch_size"
      = some (JVal.prim (Prim.int req.batchSize)) :=
    getField_setField_self h7 h8 n58 "batch_size" _ hset_batch
  refine ⟨?_, hwge, ?_, ?_, ?_, ?_, ?_, ?_, ?_⟩
  · intro b hb
    rw [s7.2.2 b hb, s6.2.2 b hb, s5.2.2 b hb, s4.2.2 b hb, s3.2.2 b hb,
      s2.2.2 b hb, s1.2.2 b hb]
    exact List.getElem?_append_left hb
  · simp [readParam, hp6, htext]
  · simp [readParam, hp3, hseed]
  · simp [readParam, hp3, hsteps]
  · simp [readParam, hp3, hcfg]
  · simp [readParam, hp58, hwidth]
  · simp [readParam, hp58, hheight]
  · simp [readParam, hp58, hbatch]

theorem prepare_workflow_frame_and_params_witness :
    ((prepare_workflow 32 exampleHeap 0 exampleReq 123).getD ([], 0)).1[2]?
      = exampleHeap[2]? ∧
    readParam ((prepare_workflow 32 exampleHeap 0 exampleReq 123).getD ([], 0)).1
      ((prepare_workflow 32 exampleHeap 0 exampleReq 123).getD ([], 0)).2
      ["input", "workflow", "6", "inputs"] "text"
      = some (JVal.prim (Prim.str "new prompt")) := by
  have hp : prepare_workflow 32 exampleHeap 0 exampleReq 123
      = some (((prepare_workflow 32 exampleHeap 0 exampleReq 123).getD ([], 0)).1,
          ((prepare_workflow 32 exampleHeap 0 exampleReq 123).getD ([], 0)).2) := by
    decide
  have hmain := prepare_workflow_frame_and_params 32 exampleHeap 0 exampleReq
    123 _ _ hp
  exact ⟨hmain.1 2 (by decide), hmain.2.2.1⟩

end QwenImg
